import Mathlib

/-!
Verification of the sougi-finder repository (a Next.js funeral-home search
application).  The TypeScript sources are shallowly embedded: JavaScript
strings are modelled as their sequence of code points (`List Char`, called
`Str` below), JavaScript string methods (`trim`, `startsWith`, `split`,
`replace`, `substring`, `toLowerCase`, regex character-class filters) are
translated into explicit recursive functions on `Str`, and JavaScript
truthiness of an optional string (`undefined` or `""` are falsy) is the
function `jsTruthy`.  Network calls, the key-value store, `Math.random()`
and lookup tables shipped as JSON are passed in as explicit parameters, so
every embedded function is a pure, computable Lean definition.
-/

namespace SougiFinder

/-- A JavaScript string as its list of code points (`for ... of` order). -/
abbrev Str := List Char

/-- JavaScript whitespace test for the characters relevant here (`\s`). -/
def isWs (c : Char) : Bool := c = ' ' || c = '\t' || c = '\n' || c = '\r'

/-- JavaScript `String.prototype.trim()` on the code-point list. -/
def trimL (l : Str) : Str :=
  ((l.dropWhile isWs).reverse.dropWhile isWs).reverse

/-- JavaScript `String.prototype.startsWith(p)`. -/
def isPfx (p l : Str) : Bool := List.isPrefixOf p l

/-- JavaScript truthiness of an optional string: `undefined` and `""` are
falsy, every other string is truthy. -/
def jsTruthy : Option Str → Bool
  | none => false
  | some s => !s.isEmpty

/-- Worker for `splitOnL`: JavaScript `split` scans left to right for the
separator, accumulating the current piece in reverse.  The extra fuel
argument (initialised to the length of the scanned list, which a non-empty
separator can only shorten) makes the recursion structural, so the kernel
can evaluate concrete instances. -/
def splitOnGo (sep : Str) : Nat → Str → Str → List Str
  | _, [], acc => [acc.reverse]
  | 0, l, acc => [acc.reverse ++ l]
  | fuel + 1, c :: rest, acc =>
    if sep ≠ [] ∧ isPfx sep (c :: rest) then
      acc.reverse :: splitOnGo sep fuel ((c :: rest).drop sep.length) []
    else
      splitOnGo sep fuel rest (c :: acc)

/-- JavaScript `String.prototype.split(sep)` for a non-empty string
separator: non-overlapping matches, empty pieces kept. -/
def splitOnL (sep l : Str) : List Str :=
  if sep = [] then [l] else splitOnGo sep l.length l []

/-- One Q&A record, as produced by `parseDetailsFromMarkdown`
(`src/app/api/search-funeral-homes/route.ts`). -/
structure QAndA where
  question : Str
  answer : Str
deriving DecidableEq

/-- The structured record `parseDetailsFromMarkdown` builds for one
`### `-section.  The numeric fields `rating` / `reviewCount` are kept as the
raw trimmed strings: the source parses them with `parseFloat` / `parseInt`
(floating point, irrelevant to every claim and to the parser's control
flow, which resets the reading flags unconditionally in those branches). -/
structure ParsedDetails where
  address : Option Str
  phone : Option Str
  ratingRaw : Option Str
  reviewCountRaw : Option Str
  reviews : List Str
  qanda : List QAndA
  ownerMessage : Option Str
  ownerPosts : List Str
deriving DecidableEq

/-- The per-section scanning state of `parseDetailsFromMarkdown`: the record
under construction, the pending `currentQandA` object (its two optional
fields) and the four `reading*` flags. -/
structure SectionState where
  address : Option Str
  phone : Option Str
  ratingRaw : Option Str
  reviewCountRaw : Option Str
  reviews : List Str
  qanda : List QAndA
  ownerMessage : Option Str
  ownerPosts : List Str
  pendingQuestion : Option Str
  pendingAnswer : Option Str
  readingReviews : Bool
  readingQandA : Bool
  readingOwnerMessage : Bool
  readingOwnerPosts : Bool
deriving DecidableEq

def initState : SectionState :=
  ⟨none, none, none, none, [], [], none, [], none, none,
   false, false, false, false⟩

/-- `'情報なし'`, the "no information" placeholder filtered by the parser. -/
def nashi : Str := "情報なし".data

def addrLabel : Str := "- **住所:**".data
def phoneLabel : Str := "- **電話番号:**".data
def ratingLabel : Str := "- **評価:**".data
def countLabel : Str := "- **レビュー数:**".data
def reviewsLabel : Str := "- **口コミ:**".data
def qandaLabel : Str := "- **Q&A:**".data
def ownerMsgLabel : Str := "- **オーナーからのメッセージ:**".data
def ownerPostsLabel : Str := "- **オーナーからの投稿:**".data
def qLabel : Str := "- **Q:**".data
def aLabel : Str := "- **A:**".data
def dashLabel : Str := "- ".data

/-- `trimmedLine.replace(label, '').trim()` for a line that starts with
`label` (the first occurrence is at position 0, so this is a prefix drop). -/
def dropLabel (label t : Str) : Str := trimL (t.drop label.length)

/-- The `/^「|」$/g` cleanup applied to review bullets: strip one leading
`「` and one trailing `」`. -/
def stripCornerQuotes (l : Str) : Str :=
  let l1 := match l with
    | '「' :: rest => rest
    | other => other
  match l1.reverse with
  | '」' :: rest => rest.reverse
  | _ => l1

/-- One iteration of the line loop of `parseDetailsFromMarkdown`
(`src/app/api/search-funeral-homes/route.ts`, lines 76-144): trim the line,
then run the `if / else if` chain in source order. -/
def processLine (s : SectionState) (line : Str) : SectionState :=
  let t := trimL line
  if isPfx addrLabel t then
    let v := dropLabel addrLabel t
    { s with address := if v ≠ nashi then some v else s.address,
             readingReviews := false, readingQandA := false }
  else if isPfx phoneLabel t then
    let v := dropLabel phoneLabel t
    { s with phone := if v ≠ nashi then some v else s.phone,
             readingReviews := false, readingQandA := false }
  else if isPfx ratingLabel t then
    { s with ratingRaw := some (dropLabel ratingLabel t),
             readingReviews := false, readingQandA := false }
  else if isPfx countLabel t then
    { s with reviewCountRaw := some (dropLabel countLabel t),
             readingReviews := false, readingQandA := false }
  else if isPfx reviewsLabel t then
    { s with readingReviews := true, readingQandA := false }
  else if isPfx qandaLabel t then
    { s with readingReviews := false, readingQandA := true,
             readingOwnerMessage := false, readingOwnerPosts := false }
  else if isPfx ownerMsgLabel t then
    let m := dropLabel ownerMsgLabel t
    { s with ownerMessage := if m ≠ [] ∧ m ≠ nashi then some m else s.ownerMessage,
             readingReviews := false, readingQandA := false,
             readingOwnerMessage := true, readingOwnerPosts := false }
  else if isPfx ownerPostsLabel t then
    { s with readingReviews := false, readingQandA := false,
             readingOwnerMessage := false, readingOwnerPosts := true }
  else if s.readingReviews && isPfx dashLabel t then
    let r := stripCornerQuotes (trimL (t.drop 2))
    { s with reviews := if r ≠ nashi then s.reviews ++ [r] else s.reviews }
  else if s.readingQandA && isPfx qLabel t then
    let flushed :=
      if jsTruthy s.pendingQuestion && jsTruthy s.pendingAnswer then
        s.qanda ++ [⟨s.pendingQuestion.getD [], s.pendingAnswer.getD []⟩]
      else s.qanda
    let qt := dropLabel qLabel t
    if qt ≠ nashi then
      { s with qanda := flushed, pendingQuestion := some qt, pendingAnswer := none }
    else
      { s with qanda := flushed, pendingQuestion := none, pendingAnswer := none }
  else if s.readingQandA && isPfx aLabel t && jsTruthy s.pendingQuestion then
    let at_ := dropLabel aLabel t
    { s with qanda := s.qanda ++ [⟨s.pendingQuestion.getD [], at_⟩],
             pendingQuestion := none, pendingAnswer := none }
  else if s.readingOwnerPosts && isPfx dashLabel t then
    let p := trimL (t.drop 2)
    { s with ownerPosts := if p ≠ [] ∧ p ≠ nashi then s.ownerPosts ++ [p] else s.ownerPosts }
  else
    s

/-- After the line loop: flush a complete pending Q&A pair
(lines 146-148) and read off the `details` record. -/
def finishSection (s : SectionState) : ParsedDetails :=
  let qs :=
    if jsTruthy s.pendingQuestion && jsTruthy s.pendingAnswer then
      s.qanda ++ [⟨s.pendingQuestion.getD [], s.pendingAnswer.getD []⟩]
    else s.qanda
  ⟨s.address, s.phone, s.ratingRaw, s.reviewCountRaw, s.reviews, qs,
   s.ownerMessage, s.ownerPosts⟩

/-- Parse one `### `-section: first line is the title (skipped when its trim
is empty), the remaining lines feed the scanning loop. -/
def parseSection (sec : Str) : Option (Str × ParsedDetails) :=
  let lines := splitOnL "\n".data sec
  let title := trimL (lines.headD [])
  if title = [] then none
  else some (title, finishSection ((lines.drop 1).foldl processLine initState))

/-- JavaScript `Map.prototype.set`: replace in place when the key exists,
otherwise append. -/
def mapSet (m : List (Str × ParsedDetails)) (k : Str) (v : ParsedDetails) :
    List (Str × ParsedDetails) :=
  if m.any (fun p => p.1 = k) then
    m.map (fun p => if p.1 = k then (k, v) else p)
  else m ++ [(k, v)]

/-- `parseDetailsFromMarkdown`
(`src/app/api/search-funeral-homes/route.ts`, lines 49-154): split on
`'### '`, drop the leading piece, build a record per titled section. -/
def parseDetailsFromMarkdown (markdown : String) : List (Str × ParsedDetails) :=
  if markdown.data = [] then []
  else
    ((splitOnL "### ".data markdown.data).drop 1).foldl
      (fun m sec =>
        match parseSection sec with
        | none => m
        | some (t, d) => mapSet m t d)
      []

/-! ## Slug generation, legacy helpers (`src/utils/urlHelpers.ts`) -/

/-- `/[a-z0-9]/.test(char)`. -/
def isLowerAlnum (c : Char) : Bool :=
  (decide ('a' ≤ c) && decide (c ≤ 'z')) || (decide ('0' ≤ c) && decide (c ≤ '9'))

/-- Replace every (non-overlapping, left-to-right) occurrence of `pat` by
`repl`: JavaScript `str.replace(new RegExp(pat, 'g'), repl)` for a literal
pattern.  Structural fuel recursion as in `splitOnGo`. -/
def replaceAllGo (pat repl : Str) : Nat → Str → Str
  | _, [] => []
  | 0, l => l
  | fuel + 1, c :: rest =>
    if pat ≠ [] ∧ isPfx pat (c :: rest) then
      repl ++ replaceAllGo pat repl fuel ((c :: rest).drop pat.length)
    else
      c :: replaceAllGo pat repl fuel rest

def replaceAllL (pat repl l : Str) : Str :=
  if pat = [] then l else replaceAllGo pat repl l.length l

/-- Replace only the first occurrence of `pat` by `repl`: JavaScript
`str.replace(pat, repl)` with a plain string pattern. -/
def replaceFirstL (pat repl : Str) : Str → Str
  | [] => []
  | c :: rest =>
    if pat ≠ [] ∧ isPfx pat (c :: rest) then
      repl ++ ((c :: rest).drop pat.length)
    else
      c :: replaceFirstL pat repl rest

/-- `/\s+/g → '-'`: each run of whitespace becomes a single hyphen.  The
boolean flag records whether the previous character was part of a run. -/
def collapseWsToHyphen : Bool → Str → Str
  | _, [] => []
  | inRun, c :: rest =>
    if isWs c then
      if inRun then collapseWsToHyphen true rest
      else '-' :: collapseWsToHyphen true rest
    else c :: collapseWsToHyphen false rest

/-- The global `-+ → '-'` regex cleanup: each run of hyphens becomes a
single hyphen. -/
def collapseHyphens : Bool → Str → Str
  | _, [] => []
  | inRun, c :: rest =>
    if c = '-' then
      if inRun then collapseHyphens true rest
      else '-' :: collapseHyphens true rest
    else c :: collapseHyphens false rest

/-- `/^-+|-+$/g → ''`: strip leading and trailing hyphen runs. -/
def trimHyphens (l : Str) : Str :=
  ((l.dropWhile (fun c => c = '-')).reverse.dropWhile (fun c => c = '-')).reverse

/-- The shared hiragana/katakana → Latin character table (`romajiMap`).
The same literal table appears three times in the sources
(`src/utils/urlHelpers.ts` and twice in `src/app/utils/urlHelpers.ts`);
`'ー'` maps to the empty string. -/
def romajiChar : Char → Option String
  | 'あ' => some "a" | 'い' => some "i" | 'う' => some "u" | 'え' => some "e" | 'お' => some "o"
  | 'か' => some "ka" | 'き' => some "ki" | 'く' => some "ku" | 'け' => some "ke" | 'こ' => some "ko"
  | 'さ' => some "sa" | 'し' => some "shi" | 'す' => some "su" | 'せ' => some "se" | 'そ' => some "so"
  | 'た' => some "ta" | 'ち' => some "chi" | 'つ' => some "tsu" | 'て' => some "te" | 'と' => some "to"
  | 'な' => some "na" | 'に' => some "ni" | 'ぬ' => some "nu" | 'ね' => some "ne" | 'の' => some "no"
  | 'は' => some "ha" | 'ひ' => some "hi" | 'ふ' => some "fu" | 'へ' => some "he" | 'ほ' => some "ho"
  | 'ま' => some "ma" | 'み' => some "mi" | 'む' => some "mu" | 'め' => some "me" | 'も' => some "mo"
  | 'や' => some "ya" | 'ゆ' => some "yu" | 'よ' => some "yo"
  | 'ら' => some "ra" | 'り' => some "ri" | 'る' => some "ru" | 'れ' => some "re" | 'ろ' => some "ro"
  | 'わ' => some "wa" | 'を' => some "wo" | 'ん' => some "n"
  | 'が' => some "ga" | 'ぎ' => some "gi" | 'ぐ' => some "gu" | 'げ' => some "ge" | 'ご' => some "go"
  | 'ざ' => some "za" | 'じ' => some "ji" | 'ず' => some "zu" | 'ぜ' => some "ze" | 'ぞ' => some "zo"
  | 'だ' => some "da" | 'ぢ' => some "ji" | 'づ' => some "zu" | 'で' => some "de" | 'ど' => some "do"
  | 'ば' => some "ba" | 'び' => some "bi" | 'ぶ' => some "bu" | 'べ' => some "be" | 'ぼ' => some "bo"
  | 'ぱ' => some "pa" | 'ぴ' => some "pi" | 'ぷ' => some "pu" | 'ぺ' => some "pe" | 'ぽ' => some "po"
  | 'ア' => some "a" | 'イ' => some "i" | 'ウ' => some "u" | 'エ' => some "e" | 'オ' => some "o"
  | 'カ' => some "ka" | 'キ' => some "ki" | 'ク' => some "ku" | 'ケ' => some "ke" | 'コ' => some "ko"
  | 'サ' => some "sa" | 'シ' => some "shi" | 'ス' => some "su" | 'セ' => some "se" | 'ソ' => some "so"
  | 'タ' => some "ta" | 'チ' => some "chi" | 'ツ' => some "tsu" | 'テ' => some "te" | 'ト' => some "to"
  | 'ナ' => some "na" | 'ニ' => some "ni" | 'ヌ' => some "nu" | 'ネ' => some "ne" | 'ノ' => some "no"
  | 'ハ' => some "ha" | 'ヒ' => some "hi" | 'フ' => some "fu" | 'ヘ' => some "he" | 'ホ' => some "ho"
  | 'マ' => some "ma" | 'ミ' => some "mi" | 'ム' => some "mu" | 'メ' => some "me" | 'モ' => some "mo"
  | 'ヤ' => some "ya" | 'ユ' => some "yu" | 'ヨ' => some "yo"
  | 'ラ' => some "ra" | 'リ' => some "ri" | 'ル' => some "ru" | 'レ' => some "re" | 'ロ' => some "ro"
  | 'ワ' => some "wa" | 'ヲ' => some "wo" | 'ン' => some "n"
  | 'ガ' => some "ga" | 'ギ' => some "gi" | 'グ' => some "gu" | 'ゲ' => some "ge" | 'ゴ' => some "go"
  | 'ザ' => some "za" | 'ジ' => some "ji" | 'ズ' => some "zu" | 'ゼ' => some "ze" | 'ゾ' => some "zo"
  | 'ダ' => some "da" | 'ヂ' => some "ji" | 'ヅ' => some "zu" | 'デ' => some "de" | 'ド' => some "do"
  | 'バ' => some "ba" | 'ビ' => some "bi" | 'ブ' => some "bu" | 'ベ' => some "be" | 'ボ' => some "bo"
  | 'パ' => some "pa" | 'ピ' => some "pi" | 'プ' => some "pu" | 'ペ' => some "pe" | 'ポ' => some "po"
  | 'ー' => some ""
  | _ => none

/-- One step of `for (const char of ...)`: a truthy table entry is appended
(`'ー' ↦ ""` is falsy), otherwise a bare `[a-z0-9]` character is kept,
everything else is dropped. -/
def slugCharFold (acc : Str) (c : Char) : Str :=
  match romajiChar c with
  | some r => if !r.data.isEmpty then acc ++ r.data
              else if isLowerAlnum c then acc ++ [c] else acc
  | none => if isLowerAlnum c then acc ++ [c] else acc

/-- `kanjiReadingMap` of `src/utils/urlHelpers.ts`, in object-literal
(insertion) order, as `Object.entries` iterates it. -/
def kanjiReadingPairs : List (String × String) :=
  [("東京", "tokyo"), ("練馬", "nerima"), ("世田谷", "setagaya"), ("渋谷", "shibuya"),
   ("新宿", "shinjuku"), ("港", "minato"), ("目黒", "meguro"), ("品川", "shinagawa"),
   ("大田", "ota"), ("中野", "nakano"), ("杉並", "suginami"), ("豊島", "toshima"),
   ("北", "kita"), ("荒川", "arakawa"), ("板橋", "itabashi"), ("足立", "adachi"),
   ("葛飾", "katsushika"), ("江戸川", "edogawa"), ("横浜", "yokohama"),
   ("川崎", "kawasaki"), ("相模原", "sagamihara"), ("大阪", "osaka"), ("京都", "kyoto"),
   ("神戸", "kobe"), ("名古屋", "nagoya"), ("福岡", "fukuoka"), ("札幌", "sapporo"),
   ("仙台", "sendai"), ("広島", "hiroshima"),
   ("葬儀", "sogi"), ("家族", "kazoku"), ("葬", "so"), ("祭", "sai"),
   ("株式会社", ""), ("有限会社", ""), ("合同会社", ""), ("社", ""),
   ("都", ""), ("府", ""), ("県", ""), ("区", ""), ("市", ""), ("町", ""), ("村", ""),
   ("丁目", ""), ("番地", ""), ("号", "")]

/-- The deterministic part of `generateSlug` in `src/utils/urlHelpers.ts`
(lines 11-99): lowercase and trim, apply the kanji word table, convert the
remaining characters, then the separator cleanup. -/
def slugCore (text : String) : Str :=
  let lowered := trimL (text.data.map Char.toLower)
  let afterKanji := kanjiReadingPairs.foldl
    (fun acc pr => replaceAllL pr.1.data pr.2.data acc) lowered
  let result := afterKanji.foldl slugCharFold []
  (trimHyphens (collapseHyphens false (collapseWsToHyphen false result))).map Char.toLower

/-- `generateSlug` of `src/utils/urlHelpers.ts` (lines 11-106).  `rand`
stands for the token `Math.random().toString(36).substring(2, 8)` drawn by
this call; it is consumed only on the fallback path. -/
def generateSlug (rand : Str) (text : String) : Str :=
  let slug := slugCore text
  if slug = [] ∨ slug.length < 2 then "facility-".data ++ rand else slug

/-- `generateFacilitySlug` of `src/utils/urlHelpers.ts` (lines 112-122). -/
def generateFacilitySlug (rand : Str) (title : String) (placeId : Option String) : Str :=
  let slug := generateSlug rand title
  if slug.length < 3 ∧ jsTruthy (placeId.map String.data) then
    let idPart := (replaceFirstL "places/".data [] ((placeId.getD "").data)).take 8
    (slug ++ ['-'] ++ idPart).map Char.toLower
  else slug

/-! ## Slug generation, current helpers (`src/app/utils/urlHelpers.ts`)

The static lookup tables `regions.json` / `municipalities.json` ship as
JSON outside the TypeScript sources; they enter the embedding as explicit
lookup-function parameters (the "fixed lookup-table state"). -/

inductive RegionType
  | municipality
  | station
  | area
deriving DecidableEq

/-- `RegionData` of `src/app/utils/urlHelpers.ts` /
`src/scripts/fill-romaji-regions.ts`.  The optional coordinates
(`lat`/`lon`, floating point) and `lineIds` are never read by any embedded
code path and are omitted. -/
structure RegionData where
  romaji : String
  rtype : RegionType
  priority : Nat
deriving DecidableEq

/-- `convertToRomajiCharLevel` (`src/app/utils/urlHelpers.ts`, lines
69-133): per-character conversion of the lowercased text, then the cleanup
`\s+ → ''`, `-+ → '-'`, strip edge hyphens, lowercase. -/
def convertToRomajiCharLevel (text : String) : Str :=
  let result := (text.data.map Char.toLower).foldl slugCharFold []
  (trimHyphens (collapseHyphens false (result.filter (fun c => !isWs c)))).map Char.toLower

/-- The `/区$|市$|町$|村$|駅$/g` cleanup before table lookup: the anchored
alternatives can only match once, at the very end. -/
def stripAdminSuffix (l : Str) : Str :=
  match l.reverse with
  | c :: rest =>
    if c = '区' ∨ c = '市' ∨ c = '町' ∨ c = '村' ∨ c = '駅' then rest.reverse else l
  | [] => l

/-- The `removeWords` list of `convertToRomajiFallback` (line 239). -/
def removeWords : List String :=
  ["株式会社", "有限会社", "合同会社", "都", "府", "県", "区", "市", "町", "村",
   "丁目", "番地", "号"]

/-- JavaScript truthiness of an optional string value. -/
def jsTruthyS : Option String → Bool
  | none => false
  | some s => !s.data.isEmpty

/-- `convertToRomajiFallback` (`src/app/utils/urlHelpers.ts`, lines
139-261): region-table lookup (raw text, then with the administrative
suffix stripped; empty `romaji` falls back to the character-level
converter), then the legacy municipality table, then word removal plus
per-character conversion with the separator cleanup. -/
def convertToRomajiFallback (regions : String → Option RegionData)
    (municipalities : String → Option String) (text : String) : Str :=
  let cleanedForLookup := trimL (stripAdminSuffix text.data)
  match regions text with
  | some rd =>
    if rd.romaji.data = [] ∨ trimL rd.romaji.data = [] then convertToRomajiCharLevel text
    else rd.romaji.data
  | none =>
    match regions (String.mk cleanedForLookup) with
    | some rd =>
      if rd.romaji.data = [] ∨ trimL rd.romaji.data = [] then
        convertToRomajiCharLevel (String.mk cleanedForLookup)
      else rd.romaji.data
    | none =>
      if jsTruthyS (municipalities (String.mk cleanedForLookup)) then
        ((municipalities (String.mk cleanedForLookup)).getD "").data
      else if jsTruthyS (municipalities text) then
        ((municipalities text).getD "").data
      else
        let cleaned := removeWords.foldl
          (fun acc w => replaceAllL w.data [] acc) text.data
        let result := (cleaned.map Char.toLower).foldl slugCharFold []
        (trimHyphens (collapseHyphens false (collapseWsToHyphen false result))).map Char.toLower

/-- `generateSlug` of `src/app/utils/urlHelpers.ts` (lines 267-270): the
synchronous path is exactly `convertToRomajiFallback`. -/
def generateSlugApp (regions : String → Option RegionData)
    (municipalities : String → Option String) (text : String) : Str :=
  convertToRomajiFallback regions municipalities text

/-- `generateFacilitySlugAsync` (`src/app/utils/urlHelpers.ts`, lines
280-314) after its `await convertToRomaji(title)` resolved to `baseSlug`
(the server-side romanizer is a network call, passed in as a value). -/
def generateFacilitySlugAsync (baseSlug : Str) (placeId : Option String) : Str :=
  if !jsTruthyS placeId then baseSlug
  else
    let placeIdSuffix :=
      ((replaceFirstL "places/".data [] ((placeId.getD "").data)).take 8).map Char.toLower
    if baseSlug.length < 3 then placeIdSuffix
    else baseSlug ++ ['-'] ++ placeIdSuffix

/-- `generateFacilitySlug` of `src/app/utils/urlHelpers.ts` (lines
319-329): same body as the legacy version but on the table-driven slug. -/
def generateFacilitySlugApp (regions : String → Option RegionData)
    (municipalities : String → Option String) (title : String)
    (placeId : Option String) : Str :=
  let slug := generateSlugApp regions municipalities title
  if slug.length < 3 ∧ jsTruthy (placeId.map String.data) then
    let idPart := (replaceFirstL "places/".data [] ((placeId.getD "").data)).take 8
    (slug ++ ['-'] ++ idPart).map Char.toLower
  else slug

/-! ## The romaji backfill script (`src/scripts/fill-romaji-regions.ts`) -/

/-- `convertToRomajiSimple` (lines 95-97):
`text.toLowerCase().replace(/[^a-z0-9]/g, '')`. -/
def convertToRomajiSimple (text : String) : Str :=
  (text.data.map Char.toLower).filter isLowerAlnum

/-- The station-dataset fields read by the script; the remaining fields of
the `Station` / `StationInfo` interfaces are never accessed. -/
structure StationInfo where
  code : String
deriving DecidableEq

structure Station where
  name_kanji : String
  name_romaji : String
  stations : List StationInfo
deriving DecidableEq

/-- `extractRomajiFromStationCode` (lines 102-121): prefer `name_romaji`,
else the last dot-separated component of the first station code, else the
simple conversion of the kanji name; then lowercase, drop whitespace, keep
only `[a-z0-9]`. -/
def extractRomajiFromStationCode (station : Station) : Str :=
  let romaji :=
    if station.name_romaji.data = [] ∨ trimL station.name_romaji.data = [] then
      match station.stations.head? with
      | some firstStation =>
        if firstStation.code.data ≠ [] then
          (splitOnL ['.'] firstStation.code.data).getLastD []
        else convertToRomajiSimple station.name_kanji
      | none => convertToRomajiSimple station.name_kanji
    else station.name_romaji.data
  ((romaji.map Char.toLower).filter (fun c => !isWs c)).filter isLowerAlnum

/-- The per-entry write-back of the backfill loop (`main`, lines 177-195):
a station entry is re-extracted from the downloaded station map when
present, everything else goes through the simple conversion. -/
def backfillRomaji (stationLookup : String → Option Station) (name : String)
    (entry : RegionData) : Str :=
  if entry.rtype = RegionType.station then
    match stationLookup name with
    | some st => extractRomajiFromStationCode st
    | none => convertToRomajiSimple name
  else convertToRomajiSimple name

/-! ## Description generation (`src/app/api/generate-description/route.ts`)

The Gemini call, the foreign-language detector, the sanitizer and the
final regex cleanup are passed in as function parameters: the claims under
scrutiny concern the retry control flow and the length gate, which are
independent of those string transformations.  `oracle n` is the result of
the `n`-th `callGeminiAPI` invocation (`Except.error` models a thrown
exception).  JavaScript `.trim()` is `trimL` on the code points. -/

def MAX_RETRIES : Nat := 2

/-- The `while (retryCount <= MAX_RETRIES)` generation loop (lines
436-484).  The structural `fuel` argument equals
`MAX_RETRIES + 1 - retryCount` on every reachable call, so the base case is
never taken from the canonical entry `genLoop oracle f sz 3 0 0 ""`; it
returns the current `description` exactly as falling out of the `while`
would.  The second component counts `callGeminiAPI` invocations. -/
def genLoop (oracle : Nat → Except Unit String) (foreign : String → Bool)
    (sanitize : String → String) :
    Nat → Nat → Nat → String → Except Unit String × Nat
  | 0, _, calls, description => (Except.ok description, calls)
  | fuel + 1, retryCount, calls, description =>
    if retryCount ≤ MAX_RETRIES then
      match oracle calls with
      | Except.error _ =>
        if MAX_RETRIES ≤ retryCount then (Except.error (), calls + 1)
        else genLoop oracle foreign sanitize fuel (retryCount + 1) (calls + 1) description
      | Except.ok raw =>
        let d := String.mk (trimL raw.data)
        if foreign d then
          let sanitized := sanitize d
          if 500 ≤ sanitized.length then (Except.ok sanitized, calls + 1)
          else if retryCount < MAX_RETRIES then
            genLoop oracle foreign sanitize fuel (retryCount + 1) (calls + 1) d
          else (Except.ok (if 0 < sanitized.length then sanitized else d), calls + 1)
        else (Except.ok d, calls + 1)
    else (Except.ok description, calls)

/-- The `POST` handler after the cache miss (lines 436-520): run the
generation loop, apply the preamble/punctuation `cleanup` (lines 489-512),
then answer 500 when the final text is missing or shorter than 300
characters, 200 with the text otherwise.  A generation error escalates to
the outer catch (status 500).  Result: (status, body, api calls). -/
def generateDescription (oracle : Nat → Except Unit String)
    (foreign : String → Bool) (sanitize : String → String)
    (cleanup : String → String) : Nat × String × Nat :=
  match genLoop oracle foreign sanitize (MAX_RETRIES + 1) 0 0 "" with
  | (Except.error _, calls) => (500, "Internal server error", calls)
  | (Except.ok d, calls) =>
    let description := cleanup d
    if description.data = [] ∨ description.length < 300 then
      (500, "Generated description is too short", calls)
    else (200, description, calls)

/-- `placeId.replace(/^places\//, '')` (line 313): strip one leading
`places/`. -/
def normalizedPlaceId (placeId : String) : Str :=
  if isPfx "places/".data placeId.data then placeId.data.drop 7 else placeId.data

/-- The cache key `description:{normalizedPlaceId}` (line 317), used for
both the `kvGet` read and the `kvSet` write of the handler. -/
def descriptionCacheKey (placeId : String) : Str :=
  "description:".data ++ normalizedPlaceId placeId

/-- `kvSet` (lines 137-172) posts the Upstash command array
`['SET', key, value]` — no `EX`/`PX` argument, hence no expiry. -/
def kvSetCommand (key value : String) : List String :=
  ["SET", key, value]

/-- The cache write of a generated description. -/
def descriptionCacheCommand (placeId description : String) : List String :=
  kvSetCommand (String.mk (descriptionCacheKey placeId)) description

/-! ## Search cache (`src/app/api/search-funeral-homes/route.ts`) -/

/-- `CACHE_TTL_SECONDS = 7 * 24 * 60 * 60` (line 22). -/
def CACHE_TTL_SECONDS : Nat := 7 * 24 * 60 * 60

/-- `generateCacheKey` (lines 160-166): lowercase, trim, strip all
whitespace, prefix `search:`. -/
def generateCacheKey (query : String) : Str :=
  "search:".data ++ (trimL (query.data.map Char.toLower)).filter (fun c => !isWs c)

/-- One key-value write with an optional expiry (seconds). -/
structure KVWrite where
  key : Str
  ttl : Option Nat
deriving DecidableEq

/-- The cache store of the search route (line 472):
`kv.set(cacheKey, cacheData, { ex: CACHE_TTL_SECONDS })`. -/
def searchCacheWrite (query : String) : KVWrite :=
  ⟨generateCacheKey query, some CACHE_TTL_SECONDS⟩

/-! ## Cache clearing endpoint (`src/pages/api/clear-cache.ts`) -/

/-- Result of the handler: HTTP status, the store after the request, and
the reported `deletedSearchKeys` / `deletedPlaceKeys` counts. -/
structure ClearCacheResult where
  status : Nat
  store : List (String × String)
  deletedSearchKeys : Nat
  deletedPlaceKeys : Nat
deriving DecidableEq

/-- The handler (lines 14-64).  `queryKey` / `headerKey` are
`req.query.key` and `req.headers['x-admin-key']`; `configKey` is
`process.env.CACHE_CLEAR_KEY` (`none` when unset).  `adminKey` is the
JavaScript `||` of the two request values; the guard rejects with 403
before any store access unless `adminKey` equals the configured key or the
hardcoded literal `'emergency-2024'`.  On success every `search:*` and
`place:*` key is deleted. -/
def clearCacheHandler (queryKey headerKey configKey : Option String)
    (store : List (String × String)) : ClearCacheResult :=
  let adminKey := if jsTruthyS queryKey then queryKey else headerKey
  if adminKey ≠ configKey ∧ adminKey ≠ some "emergency-2024" then
    ⟨403, store, 0, 0⟩
  else
    let searchKeys := store.filter (fun kv => isPfx "search:".data kv.1.data)
    let placeKeys := store.filter (fun kv => isPfx "place:".data kv.1.data)
    let remaining := store.filter
      (fun kv => !(isPfx "search:".data kv.1.data || isPfx "place:".data kv.1.data))
    ⟨200, remaining, searchKeys.length, placeKeys.length⟩

/-! ## Cache-clear scripts

`src/unnamed/part_000` (the batch REST-API script) and
`src/scripts/clear-cache-specific.ts`.  The pure store model: a list of
present keys; `kv.del` removes the key and reports whether it was present;
`kv.exists` is membership.  The `existsChecked` / `verifiedAbsent` fields
record, as instrumentation, which keys received a `kv.exists` call (and,
for the specific script, got the answer `false`). -/

/-- `deleteKeyWithVerify` of the batch script (part_000, lines 166-199).
`retriesLeft` is `MAX_RETRIES - retries` (entered with 3); the existence
check runs only when the caller's running `stats.totalDeleted` counter is
divisible by `VERIFY_INTERVAL = 5`.  Returns (success, store, exists log). -/
def deleteKeyWithVerify (key : String) (totalDeleted : Nat) :
    Nat → List String → List String → Bool × List String × List String
  | 0, store, checked =>
    let deleted := key ∈ store
    let store1 := store.filter (fun k => k ≠ key)
    if totalDeleted % 5 = 0 then
      let checked1 := checked ++ [key]
      if key ∈ store1 then (false, store1, checked1)
      else (decide deleted, store1, checked1)
    else (decide deleted, store1, checked)
  | n + 1, store, checked =>
    let deleted := key ∈ store
    let store1 := store.filter (fun k => k ≠ key)
    if totalDeleted % 5 = 0 then
      let checked1 := checked ++ [key]
      if key ∈ store1 then deleteKeyWithVerify key totalDeleted n store1 checked1
      else (decide deleted, store1, checked1)
    else (decide deleted, store1, checked)

/-- Running statistics of the batch run (`DeletionStats` plus the store and
the instrumentation log). -/
structure BatchState where
  store : List String
  totalDeleted : Nat
  verifiedDeleted : Nat
  failedKeys : List String
  existsChecked : List String
deriving DecidableEq

/-- The per-key deletion loop of the batch script (`main`, lines 101-131;
the 10-element batching only affects logging and the progress file, not
which keys are processed or in which order). -/
def runBatchLoop : List String → BatchState → BatchState
  | [], st => st
  | key :: rest, st =>
    let r := deleteKeyWithVerify key st.totalDeleted 3 st.store st.existsChecked
    let st1 :=
      if r.1 then
        { st with store := r.2.1, existsChecked := r.2.2,
                  totalDeleted := st.totalDeleted + 1,
                  verifiedDeleted := st.verifiedDeleted + 1 }
      else
        { st with store := r.2.1, existsChecked := r.2.2,
                  failedKeys := st.failedKeys ++ [key] }
    runBatchLoop rest st1

/-- `main` of the batch script: scan every `description:*` key, apply the
optional `--limit`, then delete. -/
def runBatchMain (store : List String) (limit : Option Nat) : BatchState :=
  let allKeys := store.filter (fun k => isPfx "description:".data k.data)
  let keysToDelete := match limit with
    | some n => allKeys.take n
    | none => allKeys
  runBatchLoop keysToDelete ⟨store, 0, 0, [], []⟩

/-- The failure report of the batch script (lines 145-151): only the first
10 failed keys are printed individually, the rest only as a count. -/
def reportedFailedKeys (failedKeys : List String) : List String :=
  failedKeys.take 10

/-- State of `clear-cache-specific.ts`: store, counters, and the
instrumentation log of keys whose post-deletion `kv.exists` check returned
false. -/
structure SpecificState where
  store : List String
  totalDeleted : Nat
  failedKeys : List String
  succeeded : List String
  verifiedAbsent : List String
deriving DecidableEq

/-- The deletion loop of `clear-cache-specific.ts` (`main`, lines 90-129):
pre-check existence (skip absent keys), delete, then re-check existence of
every deleted key. -/
def runSpecificLoop : List String → SpecificState → SpecificState
  | [], st => st
  | placeId :: rest, st =>
    let cacheKey := "description:" ++ placeId
    let exists0 := cacheKey ∈ st.store
    let st1 :=
      if !exists0 then st
      else
        let deleted := cacheKey ∈ st.store
        let store1 := st.store.filter (fun k => k ≠ cacheKey)
        if deleted then
          let stillExists := cacheKey ∈ store1
          if stillExists then
            { st with store := store1, failedKeys := st.failedKeys ++ [cacheKey] }
          else
            { st with store := store1, totalDeleted := st.totalDeleted + 1,
                      succeeded := st.succeeded ++ [cacheKey],
                      verifiedAbsent := st.verifiedAbsent ++ [cacheKey] }
        else { st with store := store1, failedKeys := st.failedKeys ++ [cacheKey] }
    runSpecificLoop rest st1

def runSpecific (store : List String) (placeIds : List String) : SpecificState :=
  runSpecificLoop placeIds ⟨store, 0, [], [], []⟩

/-! ## Helper lemmas -/

lemma generateSlug_eq_core (rand : Str) (text : String)
    (h : 2 ≤ (slugCore text).length) : generateSlug rand text = slugCore text := by
  unfold generateSlug
  rw [if_neg]
  push_neg
  refine ⟨?_, by omega⟩
  intro he
  rw [he] at h
  simp at h

lemma all_isLowerAlnum_filter (l : Str) :
    (l.filter isLowerAlnum).all isLowerAlnum = true := by
  rw [List.all_eq_true]
  intro c hc
  exact (List.mem_filter.mp hc).2

/-! ## Claim C2 -/

/-- C2 counterexample.  The claim says slug generation is deterministic for
every fixed input: two runs of `generateSlug` return the same slug.  For
the input `"!"` the cleaned slug is empty, so the function returns
`'facility-' + Math.random().toString(36).substring(2, 8)`
(`src/utils/urlHelpers.ts`, lines 100-103); two runs draw independent
random tokens, modelled by the `rand` parameter, and return different
slugs. -/
theorem c2_random_fallback_differs_across_runs :
    generateSlug "aaaaaa".data "!" ≠ generateSlug "bbbbbb".data "!" := by decide

/-- C2 amended: slug generation is deterministic for every input whose
deterministic core slug has at least 2 characters (so the
`Math.random()` fallback branch is not taken), both for `generateSlug` and
for `generateFacilitySlug` built on it; the table-driven `generateSlug` of
`src/app/utils/urlHelpers.ts` takes no random input at all. -/
theorem c2_slug_determinism_amended :
    (∀ (text : String) (r1 r2 : Str), 2 ≤ (slugCore text).length →
      generateSlug r1 text = generateSlug r2 text) ∧
    (∀ (title : String) (placeId : Option String) (r1 r2 : Str),
      2 ≤ (slugCore title).length →
      generateFacilitySlug r1 title placeId = generateFacilitySlug r2 title placeId) := by
  constructor
  · intro text r1 r2 h
    rw [generateSlug_eq_core r1 text h, generateSlug_eq_core r2 text h]
  · intro title placeId r1 r2 h
    unfold generateFacilitySlug
    rw [generateSlug_eq_core r1 title h, generateSlug_eq_core r2 title h]

/-- Witness for `c2_slug_determinism_amended` at the concrete input
`"あい"` (core slug `"ai"`, length 2). -/
theorem c2_slug_determinism_amended_witness :
    2 ≤ (slugCore "あい").length ∧
    generateSlug "aaaaaa".data "あい" = generateSlug "bbbbbb".data "あい" ∧
    generateFacilitySlug "aaaaaa".data "あい" (some "pid12345") =
      generateFacilitySlug "bbbbbb".data "あい" (some "pid12345") :=
  ⟨by decide,
   c2_slug_determinism_amended.1 "あい" "aaaaaa".data "bbbbbb".data (by decide),
   c2_slug_determinism_amended.2 "あい" (some "pid12345") "aaaaaa".data "bbbbbb".data
     (by decide)⟩

/-! ## Claim C3 -/

/-- C3 counterexample.  The claim says that for a base slug shorter than 3
characters with a `placeId` present, the generated facility slug *appends*
the 8-character lowercase identifier slice *to the base slug*.
`generateFacilitySlugAsync` (`src/app/utils/urlHelpers.ts`, lines 299-303)
instead discards the short base slug and returns the identifier slice
alone: for base slug `"ab"` and `placeId "places/ChIJTest123"` the result
is `"chijtest"`, which does not extend `"ab"`. -/
theorem c3_async_short_slug_not_appended :
    generateFacilitySlugAsync "ab".data (some "places/ChIJTest123") = "chijtest".data ∧
    ¬ ∃ rest : Str,
      generateFacilitySlugAsync "ab".data (some "places/ChIJTest123") = "ab".data ++ rest := by
  refine ⟨by decide, ?_⟩
  rintro ⟨rest, h⟩
  rw [show generateFacilitySlugAsync "ab".data (some "places/ChIJTest123") = "chijtest".data
      from by decide] at h
  injection h with h1 _
  exact absurd h1 (by decide)

/-- C3 amended.  When the romanized base slug is shorter than 3 characters
and a facility identifier is provided: the asynchronous
`generateFacilitySlugAsync` returns the up-to-8-character lowercase
identifier slice *alone* (discarding the base slug), while the synchronous
`generateFacilitySlug` appends `'-'` plus the slice to the base slug and
lowercases the result.  No random fallback token is emitted at this stage:
the only random token lives inside the legacy `generateSlug`, which
replaces any result shorter than 2 characters *before* the length-3 check,
so the legacy slug entering `generateFacilitySlug` is never empty. -/
theorem c3_short_slug_suffix_amended :
    (∀ (baseSlug : Str) (pid : String), pid.data ≠ [] → baseSlug.length < 3 →
      generateFacilitySlugAsync baseSlug (some pid) =
        ((replaceFirstL "places/".data [] pid.data).take 8).map Char.toLower) ∧
    (∀ (rand : Str) (title pid : String), pid.data ≠ [] →
      (generateSlug rand title).length < 3 →
      generateFacilitySlug rand title (some pid) =
        (generateSlug rand title ++ ['-'] ++
          (replaceFirstL "places/".data [] pid.data).take 8).map Char.toLower) ∧
    (∀ (rand : Str) (text : String), 2 ≤ (generateSlug rand text).length) := by
  refine ⟨?_, ?_, ?_⟩
  · intro baseSlug pid hpid hlen
    unfold generateFacilitySlugAsync
    have ht : jsTruthyS (some pid) = true := by
      simp [jsTruthyS, List.isEmpty_iff, hpid]
    rw [ht]
    simp only [Bool.not_true, Bool.false_eq_true, if_false, if_pos hlen]
    rfl
  · intro rand title pid hpid hlen
    unfold generateFacilitySlug
    have ht : jsTruthy ((some pid).map String.data) = true := by
      simp [jsTruthy, List.isEmpty_iff, hpid]
    rw [if_pos ⟨hlen, ht⟩]
    rfl
  · intro rand text
    by_cases h : slugCore text = [] ∨ (slugCore text).length < 2
    · simp only [generateSlug, if_pos h, List.length_append, List.length_cons,
        List.length_nil]
      omega
    · simp only [generateSlug, if_neg h]
      push_neg at h
      omega

/-- Witness for `c3_short_slug_suffix_amended`: base slug `"ab"` with
`placeId "places/ChIJTest123"` for the async branch, title `"あい"` (legacy
slug `"ai"`, length 2 < 3) for the sync branch. -/
theorem c3_short_slug_suffix_amended_witness :
    ("places/ChIJTest123" : String).data ≠ [] ∧ ("ab".data : Str).length < 3 ∧
    generateFacilitySlugAsync "ab".data (some "places/ChIJTest123") =
      ((replaceFirstL "places/".data [] ("places/ChIJTest123" : String).data).take 8).map
        Char.toLower ∧
    (generateSlug "r23456".data "あい").length < 3 ∧
    generateFacilitySlug "r23456".data "あい" (some "places/ChIJTest123") =
      (generateSlug "r23456".data "あい" ++ ['-'] ++
        (replaceFirstL "places/".data [] ("places/ChIJTest123" : String).data).take 8).map
        Char.toLower ∧
    2 ≤ (generateSlug "r23456".data "あい").length :=
  ⟨by decide, by decide,
   c3_short_slug_suffix_amended.1 "ab".data "places/ChIJTest123" (by decide) (by decide),
   by decide,
   c3_short_slug_suffix_amended.2.1 "r23456".data "あい" "places/ChIJTest123"
     (by decide) (by decide),
   c3_short_slug_suffix_amended.2.2 "r23456".data "あい"⟩

/-! ## Claim C4 -/

/-- C4 counterexample.  The claim says every romaji value the backfill
script writes back is non-empty.  For a station entry named `"北長岡"` that
is absent from the downloaded station map, and likewise for any
municipality entry whose name has no ASCII letters or digits, the script
writes `convertToRomajiSimple(name)`
(`src/scripts/fill-romaji-regions.ts`, lines 188, 193), which strips every
non-`[a-z0-9]` character and therefore yields the empty string on a purely
Japanese name. -/
theorem c4_backfill_can_write_empty_romaji :
    backfillRomaji (fun _ => none) "北長岡" ⟨"", RegionType.station, 3⟩ = [] ∧
    backfillRomaji (fun _ => none) "練馬" ⟨"", RegionType.municipality, 1⟩ = [] := by
  decide

/-- C4 amended: every romaji value written back by the backfill script
consists solely of characters in `[a-z0-9]` — in particular it matches
`^[a-z0-9-]*$` — but it is not guaranteed non-empty (see the
counterexample): the cleanup keeps only ASCII alphanumerics and the simple
fallback on a purely non-ASCII name produces the empty string. -/
theorem c4_backfill_charset_amended :
    ∀ (stationLookup : String → Option Station) (name : String) (entry : RegionData),
      (backfillRomaji stationLookup name entry).all isLowerAlnum = true := by
  intro stationLookup name entry
  unfold backfillRomaji
  split
  · cases stationLookup name with
    | some st =>
      simp only []
      unfold extractRomajiFromStationCode
      exact all_isLowerAlnum_filter _
    | none => exact all_isLowerAlnum_filter _
  · exact all_isLowerAlnum_filter _

/-! ## Claim C7 -/

/-- C7: every cached search result is stored under its
`search:{normalized query}` key with a fixed expiry of
`CACHE_TTL_SECONDS = 7 * 24 * 60 * 60 = 604800` seconds, and every cached
description is stored by posting the Upstash command
`['SET', 'description:{normalized placeId}', value]` — three entries, no
`EX` expiry argument, hence no expiry. -/
theorem c7_cache_expiry_policy :
    (∀ query : String,
      (searchCacheWrite query).ttl = some 604800 ∧
      isPfx "search:".data (searchCacheWrite query).key = true) ∧
    (∀ placeId description : String,
      descriptionCacheCommand placeId description =
        ["SET", String.mk ("description:".data ++ normalizedPlaceId placeId), description] ∧
      (descriptionCacheCommand placeId description).length = 3) := by
  constructor
  · intro query
    constructor
    · rfl
    · exact List.isPrefixOf_iff_prefix.mpr (List.prefix_append _ _)
  · intro placeId description
    exact ⟨rfl, rfl⟩

/-! ## Claim C10 -/

/-- C10: the description cache key is `description:` plus the placeId with
one leading `places/` prefix stripped, so a placeId with the prefix and
the same placeId without it address the same cache entry — and the same
key is used for the read and the write (`descriptionCacheKey` is the
single key construction of the handler). -/
theorem c10_placeid_prefix_normalization :
    ∀ p : Str, isPfx "places/".data p = false →
      descriptionCacheKey (String.mk ("places/".data ++ p)) =
        descriptionCacheKey (String.mk p) ∧
      descriptionCacheKey (String.mk p) = "description:".data ++ p := by
  intro p hp
  have hkey : descriptionCacheKey (String.mk p) = "description:".data ++ p := by
    unfold descriptionCacheKey normalizedPlaceId
    dsimp only
    rw [if_neg]
    intro hcontra
    rw [hp] at hcontra
    exact Bool.false_ne_true hcontra
  refine ⟨?_, hkey⟩
  rw [hkey]
  unfold descriptionCacheKey normalizedPlaceId
  dsimp only
  split
  · show "description:".data ++ ("places/".data ++ p).drop 7 = "description:".data ++ p
    have h7 : ("places/".data).length = 7 := rfl
    rw [← h7, List.drop_left]
  · rename_i hcontra
    exact absurd (List.isPrefixOf_iff_prefix.mpr (List.prefix_append _ _)) hcontra

/-- Witness for `c10_placeid_prefix_normalization` at the concrete placeId
`"ChIJabc"`. -/
theorem c10_placeid_prefix_normalization_witness :
    isPfx "places/".data "ChIJabc".data = false ∧
    descriptionCacheKey (String.mk ("places/".data ++ "ChIJabc".data)) =
      descriptionCacheKey (String.mk "ChIJabc".data) :=
  ⟨by decide, (c10_placeid_prefix_normalization "ChIJabc".data (by decide)).1⟩

/-! ## Claim C9 -/

/-- C9: a request whose presented admin key (query parameter, falling back
to the `x-admin-key` header under JavaScript `||`) equals neither the
configured `CACHE_CLEAR_KEY` nor the hardcoded literal `'emergency-2024'`
is answered 403 with the store untouched; conversely a request presenting
the hardcoded literal is accepted (status 200, `search:*` and `place:*`
keys deleted) whatever the configured key is. -/
theorem c9_clear_cache_auth :
    (∀ (queryKey headerKey configKey : Option String) (store : List (String × String)),
      (if jsTruthyS queryKey then queryKey else headerKey) ≠ configKey →
      (if jsTruthyS queryKey then queryKey else headerKey) ≠ some "emergency-2024" →
      clearCacheHandler queryKey headerKey configKey store = ⟨403, store, 0, 0⟩) ∧
    (∀ (headerKey configKey : Option String) (store : List (String × String)),
      (clearCacheHandler (some "emergency-2024") headerKey configKey store).status = 200 ∧
      (clearCacheHandler (some "emergency-2024") headerKey configKey store).store =
        store.filter (fun kv =>
          !(isPfx "search:".data kv.1.data || isPfx "place:".data kv.1.data))) := by
  constructor
  · intro queryKey headerKey configKey store h1 h2
    unfold clearCacheHandler
    rw [if_pos ⟨h1, h2⟩]
  · intro headerKey configKey store
    unfold clearCacheHandler
    have ht : jsTruthyS (some "emergency-2024") = true := by decide
    rw [ht]
    rw [if_neg]
    · exact ⟨rfl, rfl⟩
    · rintro ⟨-, hne⟩
      exact hne rfl

/-- Witness for `c9_clear_cache_auth`: a wrong key against a configured
`"secret"` is rejected with the store unchanged. -/
theorem c9_clear_cache_auth_witness :
    (if jsTruthyS (some "wrong") then some "wrong" else none) ≠ some "secret" ∧
    (if jsTruthyS (some "wrong") then some "wrong" else none) ≠ some "emergency-2024" ∧
    clearCacheHandler (some "wrong") none (some "secret") [("search:x", "1")] =
      ⟨403, [("search:x", "1")], 0, 0⟩ :=
  ⟨by decide, by decide,
   c9_clear_cache_auth.1 (some "wrong") none (some "secret") [("search:x", "1")]
     (by decide) (by decide)⟩

/-! ## Claim C5 -/

lemma genLoop_calls_le (oracle : Nat → Except Unit String) (foreign : String → Bool)
    (sanitize : String → String) :
    ∀ (fuel retryCount calls : Nat) (description : String),
      (genLoop oracle foreign sanitize fuel retryCount calls description).2 ≤
        calls + fuel := by
  intro fuel
  induction fuel with
  | zero =>
    intro retryCount calls description
    simp [genLoop]
  | succ n ih =>
    intro retryCount calls description
    simp only [genLoop]
    split
    · split
      · split
        · simp
        · exact le_trans (ih (retryCount + 1) (calls + 1) description) (by omega)
      · split
        · split
          · simp
          · split
            · exact le_trans (ih (retryCount + 1) (calls + 1) _) (by omega)
            · simp
        · simp
    · simp

/-- C5: the description generator performs at most `MAX_RETRIES + 1 = 3`
Gemini calls per request (at most 2 retries); when the loop produces a
text, the handler answers 500 exactly when the cleaned final text is
shorter than 300 characters and otherwise 200 with that text. -/
theorem c5_generation_retry_bounded :
    ∀ (oracle : Nat → Except Unit String) (foreign : String → Bool)
      (sanitize cleanup : String → String),
      (generateDescription oracle foreign sanitize cleanup).2.2 ≤ 3 ∧
      (∀ d calls,
        genLoop oracle foreign sanitize (MAX_RETRIES + 1) 0 0 "" = (Except.ok d, calls) →
        ((cleanup d).length < 300 →
          (generateDescription oracle foreign sanitize cleanup).1 = 500) ∧
        (300 ≤ (cleanup d).length →
          generateDescription oracle foreign sanitize cleanup = (200, cleanup d, calls))) ∧
      (∀ calls,
        genLoop oracle foreign sanitize (MAX_RETRIES + 1) 0 0 "" = (Except.error (), calls) →
        generateDescription oracle foreign sanitize cleanup =
          (500, "Internal server error", calls)) := by
  intro oracle foreign sanitize cleanup
  refine ⟨?_, ?_, ?_⟩
  · unfold generateDescription
    have h := genLoop_calls_le oracle foreign sanitize (MAX_RETRIES + 1) 0 0 ""
    rcases hg : genLoop oracle foreign sanitize (MAX_RETRIES + 1) 0 0 "" with ⟨r, calls⟩
    rw [hg] at h
    cases r with
    | error e => simpa using h
    | ok d =>
      dsimp only
      split
      · simpa using h
      · simpa using h
  · intro d calls hg
    unfold generateDescription
    rw [hg]
    constructor
    · intro hshort
      dsimp only
      rw [if_pos]
      right
      exact hshort
    · intro hlong
      dsimp only
      rw [if_neg]
      push_neg
      refine ⟨?_, hlong⟩
      intro he
      rw [show (cleanup d).length = (cleanup d).data.length from rfl, he] at hlong
      simp at hlong
  · intro calls hg
    unfold generateDescription
    rw [hg]

/-- Witness for `c5_generation_retry_bounded`: an oracle that immediately
answers `"x"` with no foreign language, and a cleanup producing a fixed
300-character text; the loop performs exactly one call and the handler
answers 200 with the cleaned text. -/
theorem c5_generation_retry_bounded_witness :
    genLoop (fun _ => Except.ok "x") (fun _ => false) id (MAX_RETRIES + 1) 0 0 "" =
      (Except.ok "x", 1) ∧
    300 ≤ ((fun _ : String => String.mk (List.replicate 300 'a')) "x" : String).length ∧
    generateDescription (fun _ => Except.ok "x") (fun _ => false) id
        (fun _ => String.mk (List.replicate 300 'a')) =
      (200, String.mk (List.replicate 300 'a'), 1) := by
  have hlen : 300 ≤ (String.mk (List.replicate 300 'a') : String).length := by
    show (300 : Nat) ≤ (List.replicate 300 'a').length
    rw [List.length_replicate]
  have hloop : genLoop (fun _ => Except.ok "x") (fun _ => false) id
      (MAX_RETRIES + 1) 0 0 "" = (Except.ok "x", 1) := rfl
  exact ⟨hloop, hlen,
    ((c5_generation_retry_bounded (fun _ => Except.ok "x") (fun _ => false) id
        (fun _ => String.mk (List.replicate 300 'a'))).2.1 "x" 1 hloop).2 hlen⟩

/-! ## Claim C6 -/

/-- C6 counterexample.  The claim says a successful batch run has verified
absence (an existence check returning false) for 100% of non-failed keys.
Running the batch script on a store holding exactly
`description:a` and `description:b`, both deletions succeed and no key
fails, yet only `description:a` ever receives a `kv.exists` call: the
check at part_000 line 172 runs only when the running deleted-counter is
divisible by `VERIFY_INTERVAL = 5`. -/
theorem c6_batch_existence_checks_sampled :
    (runBatchMain ["description:a", "description:b"] none).failedKeys = [] ∧
    (runBatchMain ["description:a", "description:b"] none).existsChecked =
      ["description:a"] ∧
    "description:b" ∉ (runBatchMain ["description:a", "description:b"] none).existsChecked := by
  decide

lemma not_mem_filter_ne (key : String) (store : List String) :
    key ∉ store.filter (fun k => k ≠ key) := by
  intro hmem
  have h2 := (List.mem_filter.mp hmem).2
  simp at h2

lemma delKeyWithVerify_store_not_mem (key : String) (totalDeleted : Nat) :
    ∀ (retriesLeft : Nat) (store checked : List String),
      key ∉ (deleteKeyWithVerify key totalDeleted retriesLeft store checked).2.1 := by
  intro retriesLeft
  induction retriesLeft with
  | zero =>
    intro store checked
    simp only [deleteKeyWithVerify]
    split
    · split
      · exact not_mem_filter_ne key store
      · exact not_mem_filter_ne key store
    · exact not_mem_filter_ne key store
  | succ n ih =>
    intro store checked
    simp only [deleteKeyWithVerify]
    split
    · split
      · exact ih _ _
      · exact not_mem_filter_ne key store
    · exact not_mem_filter_ne key store

lemma delKeyWithVerify_store_sub (key : String) (totalDeleted : Nat) :
    ∀ (retriesLeft : Nat) (store checked : List String),
      (deleteKeyWithVerify key totalDeleted retriesLeft store checked).2.1 ⊆ store := by
  intro retriesLeft
  induction retriesLeft with
  | zero =>
    intro store checked
    simp only [deleteKeyWithVerify]
    split
    · split
      · exact (List.filter_sublist _).subset
      · exact (List.filter_sublist _).subset
    · exact (List.filter_sublist _).subset
  | succ n ih =>
    intro store checked
    simp only [deleteKeyWithVerify]
    split
    · split
      · exact (ih _ _).trans (List.filter_sublist _).subset
      · exact (List.filter_sublist _).subset
    · exact (List.filter_sublist _).subset

lemma runBatchLoop_store_sub :
    ∀ (keys : List String) (st : BatchState),
      (runBatchLoop keys st).store ⊆ st.store := by
  intro keys
  induction keys with
  | nil => intro st; exact fun a h => h
  | cons key rest ih =>
    intro st
    simp only [runBatchLoop]
    split
    · exact (ih _).trans (delKeyWithVerify_store_sub key st.totalDeleted 3 st.store _)
    · exact (ih _).trans (delKeyWithVerify_store_sub key st.totalDeleted 3 st.store _)

lemma runBatchLoop_deletes :
    ∀ (keys : List String) (st : BatchState) (k : String),
      k ∈ keys → k ∉ (runBatchLoop keys st).store := by
  intro keys
  induction keys with
  | nil => intro st k hk; cases hk
  | cons key rest ih =>
    intro st k hk
    rcases List.mem_cons.mp hk with heq | hmem
    · subst heq
      simp only [runBatchLoop]
      split
      · intro hc
        exact delKeyWithVerify_store_not_mem k st.totalDeleted 3 st.store st.existsChecked
          (runBatchLoop_store_sub rest _ hc)
      · intro hc
        exact delKeyWithVerify_store_not_mem k st.totalDeleted 3 st.store st.existsChecked
          (runBatchLoop_store_sub rest _ hc)
    · simp only [runBatchLoop]
      split
      · exact ih _ k hmem
      · exact ih _ k hmem

lemma runSpecificLoop_verified :
    ∀ (placeIds : List String) (st : SpecificState),
      (∀ k ∈ st.succeeded, k ∈ st.verifiedAbsent) →
      ∀ k ∈ (runSpecificLoop placeIds st).succeeded,
        k ∈ (runSpecificLoop placeIds st).verifiedAbsent := by
  intro placeIds
  induction placeIds with
  | nil => intro st h; exact h
  | cons placeId rest ih =>
    intro st h
    simp only [runSpecificLoop]
    apply ih
    split
    · exact h
    · split
      · split
        · exact h
        · intro k hk
          rcases List.mem_append.mp hk with hold | hnew
          · exact List.mem_append.mpr (Or.inl (h k hold))
          · exact List.mem_append.mpr (Or.inr hnew)
      · exact h

/-- C6 amended.  What the scripts guarantee: the specific-key script
(`clear-cache-specific.ts`) does verify absence — every key it counts as
successfully deleted received a post-deletion `kv.exists` check that
returned false; the batch REST-API script (part_000) guarantees only that
every listed key is gone from the store after the loop (its existence
check runs just once per five deletions, see the counterexample), and when
more than 10 keys fail it reports only the first 10 individually, so the
individually-reported list differs from the failed set. -/
theorem c6_cache_clear_verification_amended :
    (∀ (store placeIds : List String) (k : String),
      k ∈ (runSpecific store placeIds).succeeded →
      k ∈ (runSpecific store placeIds).verifiedAbsent) ∧
    (∀ (keys : List String) (st : BatchState) (k : String),
      k ∈ keys → k ∉ (runBatchLoop keys st).store) ∧
    (∀ failedKeys : List String, 10 < failedKeys.length →
      reportedFailedKeys failedKeys ≠ failedKeys) := by
  refine ⟨?_, ?_, ?_⟩
  · intro store placeIds k hk
    exact runSpecificLoop_verified placeIds _ (fun _ h => by cases h) k hk
  · exact runBatchLoop_deletes
  · intro failedKeys hlen heq
    have := congrArg List.length heq
    rw [reportedFailedKeys, List.length_take] at this
    omega

/-- Witness for `c6_cache_clear_verification_amended` at concrete runs:
one specific-script run with a present key, one batch run, and an
11-element failed set. -/
theorem c6_cache_clear_verification_amended_witness :
    "description:p" ∈ (runSpecific ["description:p"] ["p"]).succeeded ∧
    "description:p" ∈ (runSpecific ["description:p"] ["p"]).verifiedAbsent ∧
    "description:a" ∈ ["description:a"] ∧
    "description:a" ∉ (runBatchLoop ["description:a"] ⟨["description:a"], 0, 0, [], []⟩).store ∧
    10 < (List.replicate 11 "k").length ∧
    reportedFailedKeys (List.replicate 11 "k") ≠ List.replicate 11 "k" :=
  ⟨by decide,
   c6_cache_clear_verification_amended.1 ["description:p"] ["p"] "description:p" (by decide),
   by decide,
   c6_cache_clear_verification_amended.2.1 ["description:a"]
     ⟨["description:a"], 0, 0, [], []⟩ "description:a" (by decide),
   by decide,
   c6_cache_clear_verification_amended.2.2 (List.replicate 11 "k") (by decide)⟩

/-! ## Parser invariants (claims C1 and C8) -/

/-- The scanning invariant of the Q&A machinery: the pending answer field
is never populated across line boundaries (the A-branch pushes and resets
within a single line), a pending question is never the placeholder, and
every accumulated record has a non-empty, non-placeholder question. -/
def QInv (s : SectionState) : Prop :=
  s.pendingAnswer = none ∧
  (∀ q, s.pendingQuestion = some q → q ≠ nashi) ∧
  (∀ qa ∈ s.qanda, qa.question ≠ [] ∧ qa.question ≠ nashi)

lemma qinv_init : QInv initState :=
  ⟨rfl, fun _ h => Option.noConfusion h, fun _ h => absurd h (List.not_mem_nil _)⟩

lemma bool_ne_true {b : Bool} (h : b = false) : ¬ b = true := by simp [h]

/-- The flush of a pending pair at a new `- **Q:**` line never fires while
the pending answer field is empty. -/
lemma flush_skip (pq : Option Str) (X Y : List QAndA) :
    (if jsTruthy pq && jsTruthy none then X else Y) = Y := by
  simp [jsTruthy]

lemma dropLabel_append (label rest : Str) :
    dropLabel label (label ++ rest) = trimL rest := by
  unfold dropLabel
  rw [List.drop_left]

lemma isPfx_append_self (p rest : Str) : isPfx p (p ++ rest) = true :=
  List.isPrefixOf_iff_prefix.mpr (List.prefix_append _ _)

lemma qinv_step (s : SectionState) (line : Str) (h : QInv s) :
    QInv (processLine s line) := by
  obtain ⟨hpa, hpq, hq⟩ := h
  unfold processLine
  dsimp only
  by_cases h1 : isPfx addrLabel (trimL line) = true
  · rw [if_pos h1]; exact ⟨hpa, hpq, hq⟩
  rw [if_neg h1]
  by_cases h2 : isPfx phoneLabel (trimL line) = true
  · rw [if_pos h2]; exact ⟨hpa, hpq, hq⟩
  rw [if_neg h2]
  by_cases h3 : isPfx ratingLabel (trimL line) = true
  · rw [if_pos h3]; exact ⟨hpa, hpq, hq⟩
  rw [if_neg h3]
  by_cases h4 : isPfx countLabel (trimL line) = true
  · rw [if_pos h4]; exact ⟨hpa, hpq, hq⟩
  rw [if_neg h4]
  by_cases h5 : isPfx reviewsLabel (trimL line) = true
  · rw [if_pos h5]; exact ⟨hpa, hpq, hq⟩
  rw [if_neg h5]
  by_cases h6 : isPfx qandaLabel (trimL line) = true
  · rw [if_pos h6]; exact ⟨hpa, hpq, hq⟩
  rw [if_neg h6]
  by_cases h7 : isPfx ownerMsgLabel (trimL line) = true
  · rw [if_pos h7]; exact ⟨hpa, hpq, hq⟩
  rw [if_neg h7]
  by_cases h8 : isPfx ownerPostsLabel (trimL line) = true
  · rw [if_pos h8]; exact ⟨hpa, hpq, hq⟩
  rw [if_neg h8]
  by_cases h9 : (s.readingReviews && isPfx dashLabel (trimL line)) = true
  · rw [if_pos h9]; exact ⟨hpa, hpq, hq⟩
  rw [if_neg h9]
  by_cases h10 : (s.readingQandA && isPfx qLabel (trimL line)) = true
  · rw [if_pos h10, hpa]
    simp only [flush_skip]
    by_cases hqt : dropLabel qLabel (trimL line) ≠ nashi
    · rw [if_pos hqt]
      refine ⟨rfl, ?_, hq⟩
      intro q hsome
      injection hsome with heq
      exact heq ▸ hqt
    · rw [if_neg hqt]
      exact ⟨rfl, fun q hsome => Option.noConfusion hsome, hq⟩
  rw [if_neg h10]
  by_cases h11 : (s.readingQandA && isPfx aLabel (trimL line) &&
      jsTruthy s.pendingQuestion) = true
  · rw [if_pos h11]
    simp only [Bool.and_eq_true] at h11
    obtain ⟨-, hpqt⟩ := h11
    cases hsome : s.pendingQuestion with
    | none =>
      rw [hsome] at hpqt
      simp [jsTruthy] at hpqt
    | some q =>
      have hqne : q ≠ [] := by
        intro hq0
        rw [hsome, hq0] at hpqt
        simp [jsTruthy] at hpqt
      refine ⟨rfl, fun q2 h2 => Option.noConfusion h2, ?_⟩
      intro qa hqa
      have hqa2 : qa ∈ s.qanda ++
          [(⟨(some q).getD [], dropLabel aLabel (trimL line)⟩ : QAndA)] := hqa
      rcases List.mem_append.mp hqa2 with hold | hnew
      · exact hq qa hold
      · rw [List.mem_singleton.mp hnew]
        exact ⟨hqne, hpq q hsome⟩
  rw [if_neg h11]
  by_cases h12 : (s.readingOwnerPosts && isPfx dashLabel (trimL line)) = true
  · rw [if_pos h12]; exact ⟨hpa, hpq, hq⟩
  · rw [if_neg h12]; exact ⟨hpa, hpq, hq⟩

lemma qinv_fold (lines : List Str) :
    ∀ s : SectionState, QInv s → QInv (lines.foldl processLine s) := by
  induction lines with
  | nil => intro s h; exact h
  | cons l rest ih => intro s h; exact ih _ (qinv_step s l h)

lemma qinv_finish (s : SectionState) (h : QInv s) :
    ∀ qa ∈ (finishSection s).qanda, qa.question ≠ [] ∧ qa.question ≠ nashi := by
  obtain ⟨hpa, hpq, hq⟩ := h
  unfold finishSection
  rw [hpa]
  simp only [jsTruthy, Bool.and_false, Bool.ite_eq_true_distrib]
  simpa using hq

lemma parseSection_qinv (sec : Str) (t : Str) (d : ParsedDetails)
    (h : parseSection sec = some (t, d)) :
    ∀ qa ∈ d.qanda, qa.question ≠ [] ∧ qa.question ≠ nashi := by
  unfold parseSection at h
  dsimp only at h
  by_cases ht : trimL ((splitOnL "\n".data sec).headD []) = []
  · rw [if_pos ht] at h
    exact absurd h (by simp)
  · rw [if_neg ht] at h
    injection h with h2
    injection h2 with h3 h4
    rw [← h4]
    exact qinv_finish _ (qinv_fold _ initState qinv_init)

lemma mem_mapSet (m : List (Str × ParsedDetails)) (k : Str) (v : ParsedDetails)
    (p : Str × ParsedDetails) (h : p ∈ mapSet m k v) : p ∈ m ∨ p = (k, v) := by
  unfold mapSet at h
  split at h
  · rcases List.mem_map.mp h with ⟨q, hqm, hqe⟩
    by_cases hk : q.1 = k
    · rw [if_pos hk] at hqe
      exact Or.inr hqe.symm
    · rw [if_neg hk] at hqe
      exact Or.inl (hqe ▸ hqm)
  · rcases List.mem_append.mp h with h1 | h2
    · exact Or.inl h1
    · exact Or.inr (by simpa using h2)

lemma parse_fold_qinv (sections : List Str) :
    ∀ m : List (Str × ParsedDetails),
      (∀ t d, (t, d) ∈ m → ∀ qa ∈ d.qanda, qa.question ≠ [] ∧ qa.question ≠ nashi) →
      ∀ t d,
        (t, d) ∈ sections.foldl
          (fun m sec =>
            match parseSection sec with
            | none => m
            | some (t0, d0) => mapSet m t0 d0) m →
        ∀ qa ∈ d.qanda, qa.question ≠ [] ∧ qa.question ≠ nashi := by
  induction sections with
  | nil => intro m hm t d hmem; exact hm t d hmem
  | cons sec rest ih =>
    intro m hm t d hmem
    rw [List.foldl_cons] at hmem
    cases hps : parseSection sec with
    | none =>
      rw [hps] at hmem
      exact ih m hm t d hmem
    | some td =>
      obtain ⟨t0, d0⟩ := td
      rw [hps] at hmem
      refine ih (mapSet m t0 d0) ?_ t d hmem
      intro t2 d2 h2 qa hqa
      rcases mem_mapSet m t0 d0 (t2, d2) h2 with hold | heq
      · exact hm t2 d2 hold qa hqa
      · injection heq with he1 he2
        subst he2
        exact parseSection_qinv sec t0 d2 hps qa hqa

/-- The pending answer stays `none` across any line: the only branch that
would set it pushes the completed pair and resets within the same line. -/
lemma pendingAnswer_none_step (s : SectionState) (line : Str)
    (hpa : s.pendingAnswer = none) : (processLine s line).pendingAnswer = none := by
  unfold processLine
  dsimp only
  by_cases h1 : isPfx addrLabel (trimL line) = true
  · rw [if_pos h1]; exact hpa
  rw [if_neg h1]
  by_cases h2 : isPfx phoneLabel (trimL line) = true
  · rw [if_pos h2]; exact hpa
  rw [if_neg h2]
  by_cases h3 : isPfx ratingLabel (trimL line) = true
  · rw [if_pos h3]; exact hpa
  rw [if_neg h3]
  by_cases h4 : isPfx countLabel (trimL line) = true
  · rw [if_pos h4]; exact hpa
  rw [if_neg h4]
  by_cases h5 : isPfx reviewsLabel (trimL line) = true
  · rw [if_pos h5]; exact hpa
  rw [if_neg h5]
  by_cases h6 : isPfx qandaLabel (trimL line) = true
  · rw [if_pos h6]; exact hpa
  rw [if_neg h6]
  by_cases h7 : isPfx ownerMsgLabel (trimL line) = true
  · rw [if_pos h7]; exact hpa
  rw [if_neg h7]
  by_cases h8 : isPfx ownerPostsLabel (trimL line) = true
  · rw [if_pos h8]; exact hpa
  rw [if_neg h8]
  by_cases h9 : (s.readingReviews && isPfx dashLabel (trimL line)) = true
  · rw [if_pos h9]; exact hpa
  rw [if_neg h9]
  by_cases h10 : (s.readingQandA && isPfx qLabel (trimL line)) = true
  · rw [if_pos h10]
    by_cases hqt : dropLabel qLabel (trimL line) ≠ nashi
    · rw [if_pos hqt]
    · rw [if_neg hqt]
  rw [if_neg h10]
  by_cases h11 : (s.readingQandA && isPfx aLabel (trimL line) &&
      jsTruthy s.pendingQuestion) = true
  · rw [if_pos h11]
  rw [if_neg h11]
  by_cases h12 : (s.readingOwnerPosts && isPfx dashLabel (trimL line)) = true
  · rw [if_pos h12]; exact hpa
  · rw [if_neg h12]; exact hpa

/-- A line that does not start (after trimming) with `- **A:**` cannot add
a Q&A record while the pending answer is empty. -/
lemma qanda_unchanged_no_aline (s : SectionState) (line : Str)
    (hpa : s.pendingAnswer = none) (hna : isPfx aLabel (trimL line) = false) :
    (processLine s line).qanda = s.qanda := by
  unfold processLine
  dsimp only
  by_cases h1 : isPfx addrLabel (trimL line) = true
  · rw [if_pos h1]
  rw [if_neg h1]
  by_cases h2 : isPfx phoneLabel (trimL line) = true
  · rw [if_pos h2]
  rw [if_neg h2]
  by_cases h3 : isPfx ratingLabel (trimL line) = true
  · rw [if_pos h3]
  rw [if_neg h3]
  by_cases h4 : isPfx countLabel (trimL line) = true
  · rw [if_pos h4]
  rw [if_neg h4]
  by_cases h5 : isPfx reviewsLabel (trimL line) = true
  · rw [if_pos h5]
  rw [if_neg h5]
  by_cases h6 : isPfx qandaLabel (trimL line) = true
  · rw [if_pos h6]
  rw [if_neg h6]
  by_cases h7 : isPfx ownerMsgLabel (trimL line) = true
  · rw [if_pos h7]
  rw [if_neg h7]
  by_cases h8 : isPfx ownerPostsLabel (trimL line) = true
  · rw [if_pos h8]
  rw [if_neg h8]
  by_cases h9 : (s.readingReviews && isPfx dashLabel (trimL line)) = true
  · rw [if_pos h9]
  rw [if_neg h9]
  by_cases h10 : (s.readingQandA && isPfx qLabel (trimL line)) = true
  · rw [if_pos h10, hpa]
    simp only [flush_skip]
    by_cases hqt : dropLabel qLabel (trimL line) ≠ nashi
    · rw [if_pos hqt]
    · rw [if_neg hqt]
  rw [if_neg h10]
  have h11 : ¬ (s.readingQandA && isPfx aLabel (trimL line) &&
      jsTruthy s.pendingQuestion) = true := by
    rw [hna]
    simp
  rw [if_neg h11]
  by_cases h12 : (s.readingOwnerPosts && isPfx dashLabel (trimL line)) = true
  · rw [if_pos h12]
  · rw [if_neg h12]

lemma no_aline_fold (lines : List Str) :
    ∀ s : SectionState, s.pendingAnswer = none →
      (∀ l ∈ lines, isPfx aLabel (trimL l) = false) →
      (lines.foldl processLine s).qanda = s.qanda ∧
      (lines.foldl processLine s).pendingAnswer = none := by
  induction lines with
  | nil => intro s hpa _; exact ⟨rfl, hpa⟩
  | cons l rest ih =>
    intro s hpa hno
    rw [List.foldl_cons]
    have h1 := qanda_unchanged_no_aline s l hpa (hno l (List.mem_cons_self l rest))
    have h2 := pendingAnswer_none_step s l hpa
    obtain ⟨ih1, ih2⟩ := ih (processLine s l) h2
      (fun l2 hl2 => hno l2 (List.mem_cons_of_mem l hl2))
    exact ⟨ih1.trans h1, ih2⟩

lemma finish_qanda_of_pa_none (s : SectionState) (hpa : s.pendingAnswer = none) :
    (finishSection s).qanda = s.qanda := by
  unfold finishSection
  rw [hpa]
  simp [jsTruthy]

/-- Processing a `- **Q:**` line in an active Q&A block (reviews flag off,
no pending answer) with a non-placeholder question text just records the
pending question. -/
lemma process_q_line (s : SectionState) (l rest : Str)
    (hQA : s.readingQandA = true) (hRev : s.readingReviews = false)
    (hpa : s.pendingAnswer = none) (hl : trimL l = qLabel ++ rest)
    (hne : trimL rest ≠ nashi) :
    processLine s l =
      { s with pendingQuestion := some (trimL rest), pendingAnswer := none } := by
  unfold processLine
  dsimp only
  rw [hl]
  rw [if_neg (bool_ne_true (show isPfx addrLabel (qLabel ++ rest) = false from rfl))]
  rw [if_neg (bool_ne_true (show isPfx phoneLabel (qLabel ++ rest) = false from rfl))]
  rw [if_neg (bool_ne_true (show isPfx ratingLabel (qLabel ++ rest) = false from rfl))]
  rw [if_neg (bool_ne_true (show isPfx countLabel (qLabel ++ rest) = false from rfl))]
  rw [if_neg (bool_ne_true (show isPfx reviewsLabel (qLabel ++ rest) = false from rfl))]
  rw [if_neg (bool_ne_true (show isPfx qandaLabel (qLabel ++ rest) = false from rfl))]
  rw [if_neg (bool_ne_true (show isPfx ownerMsgLabel (qLabel ++ rest) = false from rfl))]
  rw [if_neg (bool_ne_true (show isPfx ownerPostsLabel (qLabel ++ rest) = false from rfl))]
  rw [if_neg (bool_ne_true (show (s.readingReviews && isPfx dashLabel (qLabel ++ rest)) =
    false from by rw [hRev, Bool.false_and]))]
  rw [if_pos (show (s.readingQandA && isPfx qLabel (qLabel ++ rest)) = true from by
    rw [hQA, isPfx_append_self]; rfl)]
  rw [hpa]
  simp only [flush_skip]
  rw [dropLabel_append]
  rw [if_pos hne]

/-- Processing a `- **A:**` line in an active Q&A block with a truthy
pending question pushes exactly one record and resets the pending pair. -/
lemma process_a_line (s : SectionState) (l rest : Str) (q : Str)
    (hQA : s.readingQandA = true) (hRev : s.readingReviews = false)
    (hq : s.pendingQuestion = some q) (hqne : q ≠ [])
    (hl : trimL l = aLabel ++ rest) :
    processLine s l =
      { s with qanda := s.qanda ++ [⟨q, trimL rest⟩],
               pendingQuestion := none, pendingAnswer := none } := by
  have hje : jsTruthy (some q) = true := by
    cases q with
    | nil => exact absurd rfl hqne
    | cons a as => rfl
  unfold processLine
  dsimp only
  rw [hl]
  rw [if_neg (bool_ne_true (show isPfx addrLabel (aLabel ++ rest) = false from rfl))]
  rw [if_neg (bool_ne_true (show isPfx phoneLabel (aLabel ++ rest) = false from rfl))]
  rw [if_neg (bool_ne_true (show isPfx ratingLabel (aLabel ++ rest) = false from rfl))]
  rw [if_neg (bool_ne_true (show isPfx countLabel (aLabel ++ rest) = false from rfl))]
  rw [if_neg (bool_ne_true (show isPfx reviewsLabel (aLabel ++ rest) = false from rfl))]
  rw [if_neg (bool_ne_true (show isPfx qandaLabel (aLabel ++ rest) = false from rfl))]
  rw [if_neg (bool_ne_true (show isPfx ownerMsgLabel (aLabel ++ rest) = false from rfl))]
  rw [if_neg (bool_ne_true (show isPfx ownerPostsLabel (aLabel ++ rest) = false from rfl))]
  rw [if_neg (bool_ne_true (show (s.readingReviews && isPfx dashLabel (aLabel ++ rest)) =
    false from by rw [hRev, Bool.false_and]))]
  rw [if_neg (bool_ne_true (show (s.readingQandA && isPfx qLabel (aLabel ++ rest)) =
    false from by rw [show isPfx qLabel (aLabel ++ rest) = false from rfl, Bool.and_false]))]
  rw [if_pos (show (s.readingQandA && isPfx aLabel (aLabel ++ rest) &&
    jsTruthy s.pendingQuestion) = true from by rw [hQA, hq, hje, isPfx_append_self]; rfl)]
  rw [hq, dropLabel_append]
  rfl

/-! ## Claim C1 -/

/-- C1 counterexample.  The claim says a recognized `- **Q:**` line
immediately followed by a `- **A:**` line inside an active Q&A field
always produces exactly one record with that question and that answer.
When the question text is the placeholder `情報なし`, the parser
deliberately discards it (route.ts lines 129-133), so the immediately
following answer line finds no pending question and the concrete input
below — which does contain such a Q/A pair — produces zero records. -/
theorem c1_placeholder_question_drops_pair :
    (parseDetailsFromMarkdown
        "### 施設A\n- **Q&A:**\n- **Q:** 情報なし\n- **A:** 無料駐車場があります").map
      (fun p => (p.1, p.2.qanda)) = [("施設A".data, [])] := by
  decide

/-- C1 amended: in an active Q&A field, a `- **Q:**` line whose question
text is non-empty and not the placeholder `情報なし`, immediately followed
by a `- **A:**` line, appends exactly one record carrying that question
and that answer (and clears the pending state); and a `- **Q:**` line with
no later `- **A:**` line in the section contributes no record at all — the
accumulated list is unchanged through the end-of-section flush. -/
theorem c1_qa_pair_extraction_amended :
    (∀ (s : SectionState) (lQ lA rest restA : Str),
      s.readingQandA = true → s.readingReviews = false → s.pendingAnswer = none →
      trimL lQ = qLabel ++ rest → trimL lA = aLabel ++ restA →
      trimL rest ≠ [] → trimL rest ≠ nashi →
      (processLine (processLine s lQ) lA).qanda =
        s.qanda ++ [⟨trimL rest, trimL restA⟩] ∧
      (processLine (processLine s lQ) lA).pendingQuestion = none ∧
      (processLine (processLine s lQ) lA).pendingAnswer = none) ∧
    (∀ (s : SectionState) (lines : List Str),
      s.pendingAnswer = none →
      (∀ l ∈ lines, isPfx aLabel (trimL l) = false) →
      (finishSection (lines.foldl processLine s)).qanda = s.qanda) := by
  constructor
  · intro s lQ lA rest restA hQA hRev hpa hlQ hlA hne hnn
    rw [process_q_line s lQ rest hQA hRev hpa hlQ hnn]
    rw [process_a_line
      { s with pendingQuestion := some (trimL rest), pendingAnswer := none }
      lA restA (trimL rest) hQA hRev rfl hne hlA]
    exact ⟨rfl, rfl, rfl⟩
  · intro s lines hpa hno
    obtain ⟨h1, h2⟩ := no_aline_fold lines s hpa hno
    rw [finish_qanda_of_pa_none _ h2, h1]

/-- Witness for `c1_qa_pair_extraction_amended`: a concrete Q/A pair in an
active Q&A block, and a concrete section whose only line is a floating
question. -/
theorem c1_qa_pair_extraction_amended_witness :
    (let s0 : SectionState :=
      ⟨none, none, none, none, [], [], none, [], none, none, false, true, false, false⟩
     s0.readingQandA = true ∧ s0.readingReviews = false ∧ s0.pendingAnswer = none ∧
     trimL "- **Q:** 駐車場は".data = qLabel ++ " 駐車場は".data ∧
     trimL "- **A:** あります".data = aLabel ++ " あります".data ∧
     trimL " 駐車場は".data ≠ [] ∧ trimL " 駐車場は".data ≠ nashi ∧
     (processLine (processLine s0 "- **Q:** 駐車場は".data) "- **A:** あります".data).qanda =
       [⟨"駐車場は".data, "あります".data⟩]) ∧
    ((initState : SectionState).pendingAnswer = none ∧
     (∀ l ∈ ["- **Q:** 駐車場は".data], isPfx aLabel (trimL l) = false) ∧
     (finishSection ([("- **Q:** 駐車場は".data : Str)].foldl processLine initState)).qanda =
       []) := by
  constructor
  · refine ⟨rfl, rfl, rfl, by decide, by decide, by decide, by decide, ?_⟩
    have h := (c1_qa_pair_extraction_amended.1
      ⟨none, none, none, none, [], [], none, [], none, none, false, true, false, false⟩
      "- **Q:** 駐車場は".data "- **A:** あります".data
      " 駐車場は".data " あります".data
      rfl rfl rfl (by decide) (by decide) (by decide) (by decide)).1
    rw [h]
    decide
  · refine ⟨rfl, by decide, ?_⟩
    exact c1_qa_pair_extraction_amended.2 initState ["- **Q:** 駐車場は".data]
      rfl (by decide)

/-! ## Claim C8 -/

/-- C8: every Q&A record in every per-section result of
`parseDetailsFromMarkdown` carries a question (non-empty, and never the
placeholder `情報なし`) together with an answer (both fields are always
populated by construction of the push sites); and a `- **A:**` line
arriving with no truthy pending question changes neither the accumulated
records nor the pending state. -/
theorem c8_qanda_record_invariant :
    (∀ (markdown : String) (t : Str) (d : ParsedDetails),
      (t, d) ∈ parseDetailsFromMarkdown markdown →
      ∀ qa ∈ d.qanda, qa.question ≠ [] ∧ qa.question ≠ nashi) ∧
    (∀ (s : SectionState) (l : Str),
      jsTruthy s.pendingQuestion = false →
      isPfx aLabel (trimL l) = true →
      (processLine s l).qanda = s.qanda ∧
      (processLine s l).pendingQuestion = s.pendingQuestion ∧
      (processLine s l).pendingAnswer = s.pendingAnswer) := by
  constructor
  · intro markdown t d hmem
    unfold parseDetailsFromMarkdown at hmem
    split at hmem
    · exact absurd hmem (List.not_mem_nil _)
    · exact parse_fold_qinv _ [] (fun t2 d2 h2 => absurd h2 (List.not_mem_nil _))
        t d hmem
  · intro s l hpq hal
    obtain ⟨rest, hrest⟩ := List.isPrefixOf_iff_prefix.mp hal
    unfold processLine
    dsimp only
    rw [← hrest]
    rw [if_neg (bool_ne_true (show isPfx addrLabel (aLabel ++ rest) = false from rfl))]
    rw [if_neg (bool_ne_true (show isPfx phoneLabel (aLabel ++ rest) = false from rfl))]
    rw [if_neg (bool_ne_true (show isPfx ratingLabel (aLabel ++ rest) = false from rfl))]
    rw [if_neg (bool_ne_true (show isPfx countLabel (aLabel ++ rest) = false from rfl))]
    rw [if_neg (bool_ne_true (show isPfx reviewsLabel (aLabel ++ rest) = false from rfl))]
    rw [if_neg (bool_ne_true (show isPfx qandaLabel (aLabel ++ rest) = false from rfl))]
    rw [if_neg (bool_ne_true (show isPfx ownerMsgLabel (aLabel ++ rest) = false from rfl))]
    rw [if_neg (bool_ne_true (show isPfx ownerPostsLabel (aLabel ++ rest) = false from rfl))]
    rw [if_neg (bool_ne_true (show (s.readingQandA && isPfx qLabel (aLabel ++ rest)) =
      false from by rw [show isPfx qLabel (aLabel ++ rest) = false from rfl,
        Bool.and_false]))]
    rw [if_neg (bool_ne_true (show (s.readingQandA && isPfx aLabel (aLabel ++ rest) &&
      jsTruthy s.pendingQuestion) = false from by rw [hpq, Bool.and_false]))]
    by_cases h9 : (s.readingReviews && isPfx dashLabel (aLabel ++ rest)) = true
    · rw [if_pos h9]
      exact ⟨rfl, rfl, rfl⟩
    rw [if_neg h9]
    by_cases h12 : (s.readingOwnerPosts && isPfx dashLabel (aLabel ++ rest)) = true
    · rw [if_pos h12]
      exact ⟨rfl, rfl, rfl⟩
    · rw [if_neg h12]
      exact ⟨rfl, rfl, rfl⟩

/-- Witness for `c8_qanda_record_invariant` at a concrete parse and a
concrete stray answer line. -/
theorem c8_qanda_record_invariant_witness :
    (("施設A".data,
        (⟨some "東京".data, none, none, none, [], [⟨"駐車場は".data, "あり".data⟩],
          none, []⟩ : ParsedDetails)) ∈
      parseDetailsFromMarkdown
        "### 施設A\n- **住所:** 東京\n- **Q&A:**\n- **Q:** 駐車場は\n- **A:** あり" ∧
     ∀ qa ∈ [(⟨"駐車場は".data, "あり".data⟩ : QAndA)],
       qa.question ≠ [] ∧ qa.question ≠ nashi) ∧
    (jsTruthy (initState : SectionState).pendingQuestion = false ∧
     isPfx aLabel (trimL "- **A:** 宙ぶらりん".data) = true ∧
     (processLine initState "- **A:** 宙ぶらりん".data).qanda = initState.qanda) := by
  constructor
  · refine ⟨by decide, ?_⟩
    exact c8_qanda_record_invariant.1
      "### 施設A\n- **住所:** 東京\n- **Q&A:**\n- **Q:** 駐車場は\n- **A:** あり"
      "施設A".data
      ⟨some "東京".data, none, none, none, [], [⟨"駐車場は".data, "あり".data⟩],
        none, []⟩ (by decide)
  · refine ⟨rfl, by decide, ?_⟩
    exact (c8_qanda_record_invariant.2 initState "- **A:** 宙ぶらりん".data
      rfl (by decide)).1

end SougiFinder
